import Mathlib

/-!
Verification development for the `github-actions` CLI (kevinburke/github-actions).

The Go sources are shallowly embedded: byte buffers are `List Nat` (one entry
per byte), timestamps and `time.Duration` values are `Int` nanoseconds,
rendered text is `String`, fallible collaborator calls are `Except` values
passed in as parameters, and ambient process state (the current time, whether
stdout is a terminal) is passed explicitly.
-/

namespace GithubActions

/-! ## Log tail extraction (`findBuildFailure`, lib/client.go)

`bytes.LastIndexByte(s, c)` returns the index of the last occurrence of `c`
in `s`, or -1 when absent; we model the -1 case as `none`. -/

def lastIndexByte : List Nat → Nat → Option Nat
  | [], _ => none
  | b :: rest, c =>
    match lastIndexByte rest c with
    | some i => some (i + 1)
    | none => if b = c then some 0 else none

/-- The loop of `findBuildFailure`: walk `newlineIdx` backwards, one newline
boundary per iteration.  A result of `k` stands for the Go function returning
`log[k:]`; the early `return log` on a failed search is `0` (`log[0:]`). -/
def tailStartLoop (log : List Nat) : Nat → Nat → Nat
  | newlineIdx, 0 => newlineIdx
  | newlineIdx, count + 1 =>
    match lastIndexByte (log.take (newlineIdx - 1)) 10 with
    | none => 0
    | some p => tailStartLoop log (p + 1) count

/-- `findBuildFailure` extracts the last N lines from the log (raw bytes,
newline = byte 10). -/
def findBuildFailure (log : List Nat) (numOutputLines : Nat) : List Nat :=
  if log.length = 0 then log
  else log.drop (tailStartLoop log log.length numOutputLines)

/-- Specification-side decomposition of a buffer into lines: every newline
byte ends a line, and a non-empty trailing segment with no final newline also
counts as a (partial) line. -/
def splitLines : List Nat → List (List Nat)
  | [] => []
  | b :: rest =>
    if b = 10 then [10] :: splitLines rest
    else
      match splitLines rest with
      | [] => [[b]]
      | line :: lines => (b :: line) :: lines

/-- Number of newline-terminated lines in a buffer (the claim's line count
for newline-terminated buffers). -/
def countTerminatedLines (l : List Nat) : Nat := l.countP (· = 10)

-- Sanity checks against the spec's §8 examples ("a" = 97, "b" = 98, ...).
example : findBuildFailure [] 10 = [] := by decide
example : findBuildFailure [97, 10, 98, 10] 10 = [97, 10, 98, 10] := by decide
example : findBuildFailure [97, 10, 98, 10, 99, 10] 3 = [97, 10, 98, 10, 99, 10] := by decide
example : findBuildFailure [97, 10, 98, 10, 99, 10] 2 = [98, 10, 99, 10] := by decide
example : findBuildFailure [97, 10, 98, 10, 99, 10, 100, 10, 101, 10] 3 =
    [99, 10, 100, 10, 101, 10] := by decide
-- Unterminated trailing segment: "a\nb" with n = 1 yields "b".
example : findBuildFailure [97, 10, 98] 1 = [98] := by decide
-- n = 0 on a non-empty buffer with no newline yields the empty suffix.
example : findBuildFailure [120] 0 = [] := by decide
example : splitLines [97, 10, 98] = [[97, 10], [98]] := by decide
example : splitLines [97, 10, 98, 10] = [[97, 10], [98, 10]] := by decide

/-! ### Lemmas about `lastIndexByte` -/

theorem lastIndexByte_eq_none (s : List Nat) (c : Nat) (h : c ∉ s) :
    lastIndexByte s c = none := by
  induction s with
  | nil => rfl
  | cons b rest ih =>
    simp only [List.mem_cons, not_or] at h
    simp only [lastIndexByte, ih h.2]
    simp [Ne.symm h.1]

theorem lastIndexByte_append (xs ys : List Nat) (c : Nat) :
    lastIndexByte (xs ++ ys) c =
      match lastIndexByte ys c with
      | some i => some (xs.length + i)
      | none => lastIndexByte xs c := by
  induction xs with
  | nil => cases h : lastIndexByte ys c <;> simp [h, lastIndexByte]
  | cons b rest ih =>
    simp only [List.cons_append, lastIndexByte, List.append_eq]
    rw [ih]
    cases h : lastIndexByte ys c with
    | none => rfl
    | some i =>
      simp only [List.length_cons]
      congr 1
      omega

theorem lastIndexByte_concat_self (xs : List Nat) (c : Nat) :
    lastIndexByte (xs ++ [c]) c = some xs.length := by
  rw [lastIndexByte_append]
  simp [lastIndexByte]

theorem lastIndexByte_lt_length (s : List Nat) (c : Nat) (i : Nat)
    (h : lastIndexByte s c = some i) : i < s.length := by
  induction s generalizing i with
  | nil => simp [lastIndexByte] at h
  | cons b rest ih =>
    simp only [lastIndexByte] at h
    cases h' : lastIndexByte rest c with
    | some j =>
      rw [h'] at h
      cases h
      have := ih j h'
      simp only [List.length_cons]
      omega
    | none =>
      rw [h'] at h
      by_cases hb : b = c
      · simp [hb] at h
        cases h
        simp
      · simp [hb] at h

/-! ### Lemmas about `splitLines` -/

/-- A line of a buffer: non-empty, with no newline byte before its last byte. -/
def IsLine (l : List Nat) : Prop := l ≠ [] ∧ 10 ∉ l.dropLast

/-- A newline-terminated line with no interior newline. -/
def CleanLine (l : List Nat) : Prop := ∃ m, l = m ++ [10] ∧ 10 ∉ m

theorem CleanLine.isLine {l : List Nat} (h : CleanLine l) : IsLine l := by
  obtain ⟨m, rfl, hm⟩ := h
  exact ⟨by simp, by simpa [List.dropLast_concat] using hm⟩

theorem splitLines_eq_nil (l : List Nat) : splitLines l = [] ↔ l = [] := by
  cases l with
  | nil => simp [splitLines]
  | cons b rest =>
    simp only [splitLines]
    constructor
    · intro h
      by_cases hb : b = 10
      · simp [hb] at h
      · simp only [if_neg hb] at h
        cases hs : splitLines rest <;> rw [hs] at h <;> simp at h
    · intro h
      cases h

theorem splitLines_flatten (l : List Nat) : (splitLines l).flatten = l := by
  induction l with
  | nil => rfl
  | cons b rest ih =>
    by_cases hb : b = 10
    · simp [splitLines, hb, ih]
    · simp only [splitLines, if_neg hb]
      cases hs : splitLines rest with
      | nil =>
        have : rest = [] := (splitLines_eq_nil rest).mp hs
        simp [this]
      | cons line lines =>
        rw [hs] at ih
        simp only [List.flatten_cons] at ih ⊢
        simp [← ih]

theorem splitLines_structure (l : List Nat) (hne : l ≠ []) :
    ∃ M c, splitLines l = M ++ [c] ∧ (∀ m ∈ M, CleanLine m) ∧ IsLine c := by
  induction l with
  | nil => exact absurd rfl hne
  | cons b rest ih =>
    by_cases hb : b = 10
    · subst hb
      by_cases hr : rest = []
      · subst hr
        refine ⟨[], [10], by simp [splitLines], by simp, ⟨by simp, by simp⟩⟩
      · obtain ⟨M, c, hsplit, hM, hc⟩ := ih hr
        refine ⟨[10] :: M, c, ?_, ?_, hc⟩
        · simp [splitLines, hsplit]
        · intro m hm
          rcases List.mem_cons.mp hm with h | h
          · exact h ▸ ⟨[], by simp, by simp⟩
          · exact hM m h
    · by_cases hr : rest = []
      · subst hr
        refine ⟨[], [b], ?_, by simp, ⟨by simp, by simp⟩⟩
        simp [splitLines, if_neg hb, (splitLines_eq_nil []).mpr rfl]
      · obtain ⟨M, c, hsplit, hM, hc⟩ := ih hr
        cases M with
        | nil =>
          simp only [List.nil_append] at hsplit
          refine ⟨[], b :: c, ?_, by simp, ?_⟩
          · simp [splitLines, if_neg hb, hsplit]
          · refine ⟨by simp, ?_⟩
            have hcne : c ≠ [] := hc.1
            cases c with
            | nil => exact absurd rfl hcne
            | cons x xs =>
              simp only [List.dropLast_cons₂, List.mem_cons, not_or]
              constructor
              · exact fun h => hb h.symm
              · simpa [List.dropLast_cons₂] using hc.2
        | cons m0 M' =>
          simp only [List.cons_append] at hsplit
          obtain ⟨mm, hm0, hmm⟩ := hM m0 (List.mem_cons_self m0 M')
          refine ⟨(b :: m0) :: M', c, ?_, ?_, hc⟩
          · simp [splitLines, if_neg hb, hsplit]
          · intro m hm
            rcases List.mem_cons.mp hm with h | h
            · subst h
              exact ⟨b :: mm, by simp [hm0], by
                simp only [List.mem_cons, not_or]
                exact ⟨fun h => hb h.symm, hmm⟩⟩
            · exact hM m (List.mem_cons_of_mem m0 h)

theorem lastIndexByte_append_of_not_mem (xs d : List Nat) (c : Nat) (h : c ∉ d) :
    lastIndexByte (xs ++ d) c = lastIndexByte xs c := by
  rw [lastIndexByte_append, lastIndexByte_eq_none d c h]

/-! ### The loop of `findBuildFailure`, characterised on a line decomposition.

If the buffer starts with clean lines `M` followed by a final line `c` (and
arbitrary further bytes `t` that the loop never looks at), then starting at
the boundary after `c` the loop either exhausts all lines (returning the
whole buffer, index 0) or stops after consuming the last `n` lines. -/

theorem tailStartLoop_spec :
    ∀ (n : Nat) (M : List (List Nat)) (c t : List Nat),
      (∀ m ∈ M, CleanLine m) → IsLine c →
      tailStartLoop (M.flatten ++ c ++ t) (M.flatten.length + c.length) n
        = if M.length + 1 ≤ n then 0
          else ((M ++ [c]).take (M.length + 1 - n)).flatten.length := by
  intro n
  induction n with
  | zero =>
    intro M c t hM hc
    have htake : (M ++ [c]).take (M.length + 1) = M ++ [c] := by
      have hlen : (M ++ [c]).length = M.length + 1 := by simp
      rw [← hlen, List.take_length]
    simp only [tailStartLoop, Nat.sub_zero, htake]
    rw [if_neg (by omega)]
    simp [List.flatten_append]
  | succ n ih =>
    intro M c t hM hc
    have hcne : c ≠ [] := hc.1
    have hclen : 1 ≤ c.length := List.length_pos.mpr hcne
    have htake : (M.flatten ++ c ++ t).take (M.flatten.length + c.length - 1)
        = M.flatten ++ c.dropLast := by
      have h1 : M.flatten.length + c.length - 1 = M.flatten.length + (c.length - 1) := by
        omega
      rw [h1, List.append_assoc, List.take_append]
      congr 1
      rw [List.take_append_of_le_length (by omega)]
      exact (List.dropLast_eq_take c).symm
    simp only [tailStartLoop, htake]
    rw [lastIndexByte_append_of_not_mem _ _ _ hc.2]
    rcases List.eq_nil_or_concat M with rfl | ⟨M', c', rfl⟩
    · simp [lastIndexByte]
    · simp only [List.concat_eq_append] at *
      obtain ⟨m, hc', hm⟩ := hM c' (List.mem_append_right M' (List.mem_singleton_self c'))
      have hflat : (M' ++ [c']).flatten = (M'.flatten ++ m) ++ [10] := by
        simp [List.flatten_append, hc', List.append_assoc]
      rw [hflat, lastIndexByte_concat_self]
      have hidx : (M'.flatten ++ m).length + 1 = M'.flatten.length + c'.length := by
        simp [hc']
        omega
      have hlog : M'.flatten ++ m ++ [10] ++ c ++ t = M'.flatten ++ c' ++ (c ++ t) := by
        simp [hc', List.append_assoc]
      have hM' : ∀ x ∈ M', CleanLine x := fun x hx =>
        hM x (List.mem_append_left [c'] hx)
      have hrec := ih M' c' (c ++ t) hM' (CleanLine.isLine ⟨m, hc', hm⟩)
      show tailStartLoop (M'.flatten ++ m ++ [10] ++ c ++ t)
          ((M'.flatten ++ m).length + 1) n = _
      rw [hidx, hlog, hrec]
      by_cases hcond : M'.length + 1 ≤ n
      · have hcond2 : (M' ++ [c']).length + 1 ≤ n + 1 := by simpa using hcond
        rw [if_pos hcond, if_pos hcond2]
      · have hcond2 : ¬(M' ++ [c']).length + 1 ≤ n + 1 := by simpa using hcond
        rw [if_neg hcond, if_neg hcond2]
        have hk : (M' ++ [c']).length + 1 - (n + 1) = M'.length + 1 - n := by
          simp
        have hle : M'.length + 1 - n ≤ (M' ++ [c']).length := by simp
        rw [hk, List.take_append_of_le_length hle]

/-- Master characterisation: `findBuildFailure` drops all but the last
`numOutputLines` lines of the buffer (in `Nat` subtraction, so a buffer with
at most that many lines is returned whole). -/
theorem findBuildFailure_eq_lastLines (log : List Nat) (n : Nat) :
    findBuildFailure log n
      = ((splitLines log).drop ((splitLines log).length - n)).flatten := by
  by_cases hne : log = []
  · subst hne
    simp [findBuildFailure, splitLines]
  · obtain ⟨M, c, hsplit, hM, hc⟩ := splitLines_structure log hne
    have hflat : (M ++ [c]).flatten = log := hsplit ▸ splitLines_flatten log
    have hlen : log.length = M.flatten.length + c.length := by
      rw [← hflat]
      simp [List.flatten_append]
    have hlog : log = M.flatten ++ c ++ [] := by
      rw [List.append_nil, ← hflat]
      simp [List.flatten_append]
    have hloop := tailStartLoop_spec n M c [] hM hc
    rw [← hlog] at hloop
    rw [findBuildFailure, if_neg (by simp [hne]), hlen, hloop, hsplit]
    by_cases hcond : M.length + 1 ≤ n
    · rw [if_pos hcond]
      have : (M ++ [c]).length - n = 0 := by simp; omega
      rw [this, List.drop_zero, List.drop_zero, hflat]
    · rw [if_neg hcond]
      have hk : (M ++ [c]).length - n = M.length + 1 - n := by simp
      rw [hk]
      have hsplit2 : log = ((M ++ [c]).take (M.length + 1 - n)).flatten
          ++ ((M ++ [c]).drop (M.length + 1 - n)).flatten := by
        rw [← List.flatten_append, List.take_append_drop, hflat]
      conv_lhs => rw [hsplit2]
      exact List.drop_left _ _

theorem tailStartLoop_le (log : List Nat) :
    ∀ (n idx : Nat), idx ≤ log.length → tailStartLoop log idx n ≤ log.length := by
  intro n
  induction n with
  | zero => intro idx h; exact h
  | succ n ih =>
    intro idx h
    simp only [tailStartLoop]
    cases hfind : lastIndexByte (log.take (idx - 1)) 10 with
    | none => exact Nat.zero_le _
    | some p =>
      have hp : p < (log.take (idx - 1)).length := lastIndexByte_lt_length _ _ _ hfind
      have : (log.take (idx - 1)).length ≤ idx - 1 := by
        simp [List.length_take]
      exact ih (p + 1) (by omega)

/-- C1 counterexample input: the buffer `"x"` (byte 120) with `n = 0` holds
zero newline-terminated lines, which is at most `n`, yet `findBuildFailure`
does not return the whole buffer. -/
theorem findBuildFailure_not_whole_on_unterminated :
    countTerminatedLines [120] ≤ 0 ∧ findBuildFailure [120] 0 ≠ [120] := by
  constructor
  · decide
  · decide

/-- C1 (amended): `findBuildFailure log n` is always a suffix of `log`; it
equals the concatenation of the last `n` lines of `log` (each newline ends a
line, and a non-empty trailing segment with no final newline also counts as a
line); in particular the whole buffer is returned whenever it has at most `n`
such lines — which, for a newline-terminated buffer, is exactly the "at most
`n` newline-terminated lines" case of the claim, with no spurious leading
blank line in the exactly-`n` case. -/
theorem findBuildFailure_suffix_lastLines (log : List Nat) (n : Nat) :
    findBuildFailure log n <:+ log
    ∧ findBuildFailure log n
        = ((splitLines log).drop ((splitLines log).length - n)).flatten
    ∧ ((splitLines log).length ≤ n → findBuildFailure log n = log) := by
  refine ⟨?_, findBuildFailure_eq_lastLines log n, ?_⟩
  · rw [findBuildFailure]
    by_cases h : log.length = 0
    · rw [if_pos h]
    · rw [if_neg h]
      exact List.drop_suffix _ _
  · intro hle
    rw [findBuildFailure_eq_lastLines log n, Nat.sub_eq_zero_of_le hle,
      List.drop_zero, splitLines_flatten]

/-- C1 witness: a concrete instance of the amended theorem, on the buffer
`"a\nb\nc\n"` with `n = 2`. -/
theorem findBuildFailure_suffix_lastLines_witness :
    findBuildFailure [97, 10, 98, 10, 99, 10] 2 = [98, 10, 99, 10] := by
  have h := (findBuildFailure_suffix_lastLines [97, 10, 98, 10, 99, 10] 2).2.1
  rw [h]
  decide

/-- C10: total, in-bounds evaluation of `findBuildFailure`.  For a non-empty
buffer the initial index `len(log)` lies in `[1, len]`; every loop step that
finds a newline produces a strictly smaller index that stays in `[1, len]`;
the final index is at most `len`, so `log[:newlineIdx-1]` and
`log[newlineIdx:]` (here `List.take`/`List.drop`) never leave the buffer and
the function totally evaluates to that in-bounds suffix. -/
theorem findBuildFailure_inbounds (log : List Nat) (n : Nat) (hne : log ≠ []) :
    1 ≤ log.length
    ∧ (∀ idx p, 1 ≤ idx → idx ≤ log.length →
        lastIndexByte (log.take (idx - 1)) 10 = some p →
        1 ≤ p + 1 ∧ p + 1 ≤ log.length ∧ p + 1 < idx)
    ∧ tailStartLoop log log.length n ≤ log.length
    ∧ findBuildFailure log n = log.drop (tailStartLoop log log.length n) := by
  have hpos : 0 < log.length := List.length_pos.mpr hne
  refine ⟨hpos, ?_, tailStartLoop_le log n log.length (Nat.le_refl _), ?_⟩
  · intro idx p h1 h2 hfind
    have hp : p < (log.take (idx - 1)).length := lastIndexByte_lt_length _ _ _ hfind
    have : (log.take (idx - 1)).length ≤ idx - 1 := by
      simp [List.length_take]
    refine ⟨Nat.le_add_left 1 p, by omega, by omega⟩
  · rw [findBuildFailure, if_neg (by omega)]

/-- C10 witness: the in-bounds facts at the concrete buffer `"a\n"`, `n = 3`. -/
theorem findBuildFailure_inbounds_witness :
    tailStartLoop [97, 10] 2 3 ≤ 2
    ∧ findBuildFailure [97, 10] 3 = List.drop (tailStartLoop [97, 10] 2 3) [97, 10] := by
  have h := findBuildFailure_inbounds [97, 10] 3 (by decide)
  exact ⟨h.2.2.1, h.2.2.2⟩

/-! ## Progress throttle (`shouldPrint`, main.go)

Times and durations are `Int` nanoseconds, as in Go's `time.Duration`.
`time.Now()` is passed explicitly as the extra final argument `now`;
`t.Add(d).Before(now)` is the strict comparison `t + d < now`. -/

def second : Int := 1000000000

def minute : Int := 60 * second

def shouldPrint (lastPrinted : Int) (duration : Int) (now : Int) : Bool :=
  decide (lastPrinted +
    (if duration > 25 * minute then 3 * minute
     else if duration > 8 * minute then 2 * minute
     else if duration > 5 * minute then 30 * second
     else if duration > 3 * minute then 20 * second
     else if duration > 1 * minute then 15 * second
     else 10 * second) < now)

/-- Modelled from the claim text: the step function `interval(elapsed)`,
with the bucket boundaries written as the claim states them
(10s when elapsed ≤ 1min, 15s when 1 < elapsed ≤ 3min, and so on). -/
def claimInterval (elapsed : Int) : Int :=
  if elapsed ≤ 1 * minute then 10 * second
  else if elapsed ≤ 3 * minute then 15 * second
  else if elapsed ≤ 5 * minute then 20 * second
  else if elapsed ≤ 8 * minute then 30 * second
  else if elapsed ≤ 25 * minute then 2 * minute
  else 3 * minute

-- Sanity checks against the repository's TestShouldPrint table
-- (lastPrinted = now - sinceLast).
example : shouldPrint (-(5 * second)) (30 * second) 0 = false := by decide
example : shouldPrint (-(11 * second)) (30 * second) 0 = true := by decide
example : shouldPrint (-(10 * second)) (2 * minute) 0 = false := by decide
example : shouldPrint (-(16 * second)) (2 * minute) 0 = true := by decide
example : shouldPrint (-(15 * second)) (4 * minute) 0 = false := by decide
example : shouldPrint (-(21 * second)) (4 * minute) 0 = true := by decide
example : shouldPrint (-(25 * second)) (6 * minute) 0 = false := by decide
example : shouldPrint (-(31 * second)) (6 * minute) 0 = true := by decide
example : shouldPrint (-minute) (10 * minute) 0 = false := by decide
example : shouldPrint (-(2 * minute + second)) (10 * minute) 0 = true := by decide
example : shouldPrint (-(2 * minute)) (30 * minute) 0 = false := by decide
example : shouldPrint (-(3 * minute + second)) (30 * minute) 0 = true := by decide

/-- C2: `shouldPrint(t, elapsed)` is true iff `t + interval(elapsed)` is
strictly before now, where `interval` is exactly the claim's step function
(10s for ≤1min, 15s for (1,3]min, 20s for (3,5]min, 30s for (5,8]min,
2min for (8,25]min, 3min beyond). -/
theorem shouldPrint_iff_add_interval_before (t elapsed now : Int) :
    shouldPrint t elapsed now = true ↔ t + claimInterval elapsed < now := by
  rw [shouldPrint, claimInterval, decide_eq_true_eq]
  rcases lt_trichotomy elapsed (25 * minute) with h25 | h25 | h25 <;>
    rcases lt_trichotomy elapsed (8 * minute) with h8 | h8 | h8 <;>
    rcases lt_trichotomy elapsed (5 * minute) with h5 | h5 | h5 <;>
    rcases lt_trichotomy elapsed (3 * minute) with h3 | h3 | h3 <;>
    rcases lt_trichotomy elapsed (1 * minute) with h1 | h1 | h1 <;>
    simp only [minute, second] at * <;>
    omega

/-- C3 counterexample: with `lastPrinted = 0`, `elapsed = 0` (bucket interval
10s) and `now = 10s`, we have `now - t = interval(elapsed)` exactly, so the
claim's `now - t ≥ interval` predicts true, but `shouldPrint` returns false
(the code requires `t + interval` to be *strictly* before now). -/
theorem shouldPrint_not_ge_at_boundary :
    ¬(shouldPrint 0 0 (10 * second) = true ↔ 10 * second - 0 ≥ claimInterval 0) := by
  intro h
  have h1 : shouldPrint 0 0 (10 * second) = false := by decide
  have h2 : 10 * second - 0 ≥ claimInterval 0 := by decide
  rw [h1] at h
  exact absurd (h.mpr h2) (by decide)

/-- C3 (amended): for a fixed elapsed bucket, `shouldPrint(t, elapsed)` is
true iff `now - t > interval(elapsed)` — strictly greater; at exact equality
(`now - t = interval(elapsed)`) it returns false. -/
theorem shouldPrint_iff_gt_interval (t elapsed now : Int) :
    shouldPrint t elapsed now = true ↔ now - t > claimInterval elapsed := by
  rw [shouldPrint_iff_add_interval_before]
  omega

/-! ## Error classification (`isHttpError`, main.go)

Go error values reaching `isHttpError` are modelled by an inductive type
covering the dynamic types the function's type switch distinguishes:
`*net.OpError` (operation, network, and whether its `Timeout()` reports
true), `*net.DNSError` (`IsTimeout`), `net.UnknownNetworkError` (a
`net.Error` whose `Timeout()` is constantly false), any other `net.Error`
implementation (its `Timeout()` value), an error that does not implement
`net.Error` at all, and `*url.Error` wrapping another error.  A Go `nil`
error is `Option.none` at the call site. -/

inductive GoErr where
  | opError (op : String) (network : String) (timeoutFlag : Bool)
  | dnsError (timeoutFlag : Bool)
  | unknownNetworkError (s : String)
  | netError (timeoutFlag : Bool)
  | generic (msg : String)
  | urlError (err : GoErr)
  deriving DecidableEq

/-- The `Timeout()` signal of an error: constructors carry their flag,
`net.UnknownNetworkError.Timeout()` is constantly false, a non-`net.Error`
exposes no timeout signal, and `url.Error.Timeout()` delegates to the
wrapped error. -/
def timesOut : GoErr → Bool
  | .opError _ _ t => t
  | .dnsError t => t
  | .unknownNetworkError _ => false
  | .netError t => t
  | .generic _ => false
  | .urlError e => timesOut e

/-- The one-level `*url.Error` unwrapping at the top of `isHttpError`. -/
def unwrapURL : GoErr → GoErr
  | .urlError err => err
  | e => e

/-- `isHttpError` checks if the given error is a request timeout or a network
failure - in those cases we want to just retry the request.  The type switch
tries `*net.OpError`, then `*net.DNSError`, then the `net.Error` interface
(which `net.UnknownNetworkError` and `*url.Error` also implement, via their
`Timeout()` methods), and anything else falls to `default: return false`. -/
def isHttpError : Option GoErr → Bool
  | none => false
  | some err =>
    match unwrapURL err with
    | .opError op network _ => op == "dial" && network == "tcp"
    | .dnsError _ => true
    | .unknownNetworkError _ => false
    | .netError t => t
    | .urlError inner => timesOut inner
    | .generic _ => false

-- Sanity checks against the repository's TestIsHttpError table.
example : isHttpError none = false := by decide
example : isHttpError (some (.unknownNetworkError "foo")) = false := by decide
example : isHttpError (some (.dnsError false)) = true := by decide
example : isHttpError (some (.opError "dial" "tcp" false)) = true := by decide
example : isHttpError (some (.opError "read" "tcp" false)) = false := by decide
example : isHttpError (some (.urlError (.dnsError false))) = true := by decide
example : isHttpError (some (.urlError (.unknownNetworkError "foo"))) = false := by
  decide

/-- C4: the classifier's retryable-vs-fatal decisions — nil is not classified
(false); a URL-level error is first unwrapped and (when the cause is not
itself a URL error) classified as its cause would be; DNS failures are
retryable, bare or URL-wrapped; dial/tcp operation errors are retryable;
"read" operation errors are not; a plain unknown-network error and a URL
error wrapping a generic error are fatal. -/
theorem isHttpError_classification (t : Bool) (network s msg : String)
    (inner : GoErr) (hinner : ∀ e, inner ≠ GoErr.urlError e) :
    isHttpError none = false
    ∧ isHttpError (some (.dnsError t)) = true
    ∧ isHttpError (some (.urlError (.dnsError t))) = true
    ∧ isHttpError (some (.opError "dial" "tcp" t)) = true
    ∧ isHttpError (some (.opError "read" network t)) = false
    ∧ isHttpError (some (.unknownNetworkError s)) = false
    ∧ isHttpError (some (.urlError (.generic msg))) = false
    ∧ isHttpError (some (.urlError inner)) = isHttpError (some inner) := by
  refine ⟨rfl, rfl, rfl, rfl, rfl, rfl, rfl, ?_⟩
  cases inner with
  | urlError e => exact absurd rfl (hinner e)
  | _ => rfl

/-- C4 witness: the classification at concrete inputs. -/
theorem isHttpError_classification_witness :
    isHttpError (some (.opError "dial" "tcp" false)) = true
    ∧ isHttpError (some (.urlError (.opError "dial" "tcp" false)))
        = isHttpError (some (.opError "dial" "tcp" false)) :=
  ⟨(isHttpError_classification false "tcp" "foo" "bar"
      (.opError "dial" "tcp" false) (fun _ h => GoErr.noConfusion h)).2.2.2.1,
   (isHttpError_classification false "tcp" "foo" "bar"
      (.opError "dial" "tcp" false) (fun _ h => GoErr.noConfusion h)).2.2.2.2.2.2.2⟩

/-- C5 counterexample: a `*net.OpError` with operation "read" whose
`Timeout()` reports true exposes a timeout signal, yet `isHttpError`
returns false — the `*net.OpError` case of the type switch fires first and
classifies by operation/network only. -/
theorem isHttpError_timeout_read_not_retried :
    timesOut (GoErr.opError "read" "tcp" true) = true
    ∧ isHttpError (some (GoErr.opError "read" "tcp" true)) = false := by
  exact ⟨rfl, rfl⟩

/-- C5 (amended): every non-nil error that exposes a timeout signal after
URL-level unwrapping is retried (isHttpError returns true), *unless* the
unwrapped error is a network operation error — operation errors are
classified solely by operation and network, so a non-dial operation error
reporting a timeout is not retried. -/
theorem isHttpError_of_timeout (e : GoErr)
    (ht : timesOut (unwrapURL e) = true)
    (hop : ∀ op network t, unwrapURL e ≠ GoErr.opError op network t) :
    isHttpError (some e) = true := by
  cases e with
  | opError op network t => exact absurd rfl (hop op network t)
  | dnsError t => rfl
  | unknownNetworkError s => exact absurd ht (by simp [unwrapURL, timesOut])
  | netError t => simpa [isHttpError, unwrapURL, timesOut] using ht
  | generic msg => exact absurd ht (by simp [unwrapURL, timesOut])
  | urlError inner =>
    cases inner with
    | opError op network t => exact absurd rfl (hop op network t)
    | dnsError t => rfl
    | unknownNetworkError s => exact absurd ht (by simp [unwrapURL, timesOut])
    | netError t => simpa [isHttpError, unwrapURL, timesOut] using ht
    | generic msg => exact absurd ht (by simp [unwrapURL, timesOut])
    | urlError e2 => simpa [isHttpError, unwrapURL, timesOut] using ht

/-- C5 witness: a timing-out `net.Error` that is neither an operation error
nor a DNS error is retried. -/
theorem isHttpError_of_timeout_witness :
    isHttpError (some (GoErr.netError true)) = true :=
  isHttpError_of_timeout (GoErr.netError true) (by decide)
    (fun _ _ _ h => GoErr.noConfusion h)

/-! ## Data model (lib/lib.go)

Timestamps are `Int` nanoseconds since the epoch; `*time.Time` pointers are
`Option Int`. -/

structure PullRequestRef where
  number : Int
  url : String
  deriving DecidableEq

structure WorkflowRun where
  id : Int
  name : String
  headBranch : String
  headSha : String
  path : String
  runNumber : Int
  runAttempt : Int
  event : String
  displayTitle : String
  status : String
  conclusion : Option String
  workflowId : Int
  url : String
  htmlURL : String
  createdAt : Int
  updatedAt : Int
  runStartedAt : Option Int
  jobsURL : String
  pullRequests : List PullRequestRef
  deriving DecidableEq

structure Step where
  name : String
  status : String
  conclusion : Option String
  number : Int
  startedAt : Option Int
  completedAt : Option Int
  deriving DecidableEq

structure Job where
  id : Int
  runId : Int
  name : String
  status : String
  conclusion : Option String
  startedAt : Option Int
  completedAt : Option Int
  steps : List Step
  htmlURL : String
  deriving DecidableEq

/-- `Job.Failed`: the conclusion pointer is non-nil and equals "failure". -/
def Job.Failed (j : Job) : Bool := j.conclusion == some "failure"

def WorkflowRun.IsCompleted (r : WorkflowRun) : Bool := r.status == "completed"

def WorkflowRun.IsSuccess (r : WorkflowRun) : Bool :=
  r.IsCompleted && r.conclusion == some "success"

def WorkflowRun.IsFailed (r : WorkflowRun) : Bool :=
  match r.conclusion with
  | none => false
  | some c => r.IsCompleted && (c == "failure" || c == "cancelled" || c == "timed_out")

/-- Go `time.Duration.Round(m)`: round `d` to the nearest multiple of `m`,
ties away from zero.  Go's `%` truncates toward zero (`Int.tmod`); Go binds
it to `r` once, inlined here.  The Int64-overflow clamp branches of the Go
implementation cannot trigger over unbounded integers and are omitted. -/
def durRound (d m : Int) : Int :=
  if m ≤ 0 then d
  else if d < 0 then
    if -(Int.tmod d m) + -(Int.tmod d m) < m then d + -(Int.tmod d m)
    else d - m + -(Int.tmod d m)
  else
    if Int.tmod d m + Int.tmod d m < m then d - Int.tmod d m
    else d + m - Int.tmod d m

example : durRound (1400 * 1000000) (1000 * 1000000) = 1000 * 1000000 := by decide
example : durRound (1500 * 1000000) (1000 * 1000000) = 2000 * 1000000 := by decide
example : durRound (-(1500 * 1000000)) (1000 * 1000000) = -(2000 * 1000000) := by
  decide

/-- `WorkflowRun.Duration`: zero without a start timestamp, else
`end.Sub(start).Round(time.Second)` where `end` is the last update for a
completed run and "now" otherwise (the Go local `end` is inlined). -/
def WorkflowRun.Duration (r : WorkflowRun) (now : Int) : Int :=
  match r.runStartedAt with
  | none => 0
  | some start =>
    durRound ((if r.IsCompleted then r.updatedAt else now) - start) second

theorem durRound_nonneg (d m : Int) (hd : 0 ≤ d) (hm : 0 < m) :
    0 ≤ durRound d m := by
  rw [durRound, if_neg (by omega), if_neg (by omega),
    Int.tmod_eq_emod hd hm.le]
  have h1 : 0 ≤ d % m := Int.emod_nonneg d (by omega)
  have h2 : d % m < m := Int.emod_lt_of_pos d hm
  have h3 : d % m = d - m * (d / m) := Int.emod_def d m
  have h4 : 0 ≤ d / m := Int.ediv_nonneg hd hm.le
  have h5 : 0 ≤ m * (d / m) := mul_nonneg hm.le h4
  split_ifs with hhalf
  · linarith
  · linarith

/-- C6 counterexample run: completed, with a start timestamp of t = 600s but
a last-update timestamp of t = 0, as nothing in the code forbids. -/
def backdatedRun : WorkflowRun :=
  { id := 1, name := "ci", headBranch := "main", headSha := "", path := "",
    runNumber := 1, runAttempt := 1, event := "push", displayTitle := "",
    status := "completed", conclusion := some "failure", workflowId := 1,
    url := "", htmlURL := "", createdAt := 0, updatedAt := 0,
    runStartedAt := some (600 * second), jobsURL := "", pullRequests := [] }

/-- C6 counterexample: `Duration()` of a completed run whose last-update
timestamp precedes its start timestamp is negative (-600s here); nothing
clamps `end - start` for completed runs. -/
theorem duration_negative_on_backdated_update :
    backdatedRun.Duration 0 < 0 := by decide

/-- C6 (amended): `Duration()` returns zero when the start timestamp is
absent, and otherwise `end - start` rounded to whole seconds with `end` the
last-update timestamp for completed runs and "now" for others; the result is
non-negative whenever that end bound is not earlier than the start timestamp
(for non-completed runs the "now" end bound enforces this as long as the
start is not in the future). -/
theorem duration_shape_and_nonneg (r : WorkflowRun) (now : Int)
    (h : ∀ s, r.runStartedAt = some s →
        s ≤ (if r.IsCompleted then r.updatedAt else now)) :
    0 ≤ r.Duration now
    ∧ (r.runStartedAt = none → r.Duration now = 0)
    ∧ (∀ s, r.runStartedAt = some s →
        r.Duration now
          = durRound ((if r.IsCompleted then r.updatedAt else now) - s) second) := by
  refine ⟨?_, ?_, ?_⟩
  · cases hs : r.runStartedAt with
    | none => simp [WorkflowRun.Duration, hs]
    | some s =>
      have hle := h s hs
      simp only [WorkflowRun.Duration, hs]
      exact durRound_nonneg _ _ (by omega) (by norm_num [second])
  · intro hnone
    simp [WorkflowRun.Duration, hnone]
  · intro s hs
    simp [WorkflowRun.Duration, hs]

/-- C6 witness: the amended theorem at a concrete completed run whose update
timestamp (700s) follows its start timestamp (600s). -/
theorem duration_shape_and_nonneg_witness :
    0 ≤ ({ backdatedRun with updatedAt := 700 * second } : WorkflowRun).Duration 0 :=
  (duration_shape_and_nonneg { backdatedRun with updatedAt := 700 * second } 0
    (by intro s hs; injection hs with h; subst h; decide)).1

/-! ## Job summary rendering (`buildJobsSummary`, lib/client.go)

Rendered text is modelled at rune level as `String`. -/

/-- Go `time.fmtFrac` (helper loop): formats `prec` digits of the fraction
from the least significant up, omitting trailing zeros, prepending the
decimal point if anything was printed; returns the text and `v / 10^prec`. -/
def fmtFracGo : Nat → Nat → Bool → String → String × Nat
  | 0, v, printFlag, acc => (if printFlag then "." ++ acc else "", v)
  | prec + 1, v, printFlag, acc =>
    fmtFracGo prec (v / 10) (printFlag || decide (v % 10 ≠ 0))
      (if printFlag || decide (v % 10 ≠ 0) then
        String.singleton (Char.ofNat (48 + v % 10)) ++ acc
      else acc)

def fmtFrac (v : Nat) (prec : Nat) : String × Nat := fmtFracGo prec v false ""

/-- Go `time.Duration.String` (Go `fmtInt` is decimal printing, `Nat.repr`).
The buffer is assembled right to left in Go; functionally the result is
integer part ++ fraction ++ unit, with minutes and hours prefixed when the
respective higher value is non-zero. -/
def durationString (d : Int) : String :=
  let u0 := d.natAbs
  let core :=
    if u0 < 1000000000 then
      if u0 = 0 then "0s"
      else if u0 < 1000 then
        Nat.repr (fmtFrac u0 0).2 ++ (fmtFrac u0 0).1 ++ "ns"
      else if u0 < 1000000 then
        Nat.repr (fmtFrac u0 3).2 ++ (fmtFrac u0 3).1 ++ "µs"
      else
        Nat.repr (fmtFrac u0 6).2 ++ (fmtFrac u0 6).1 ++ "ms"
    else
      let fr := fmtFrac u0 9
      let secPart := Nat.repr (fr.2 % 60) ++ fr.1 ++ "s"
      let u2 := fr.2 / 60
      if u2 = 0 then secPart
      else
        let minPart := Nat.repr (u2 % 60) ++ "m" ++ secPart
        if u2 / 60 = 0 then minPart else Nat.repr (u2 / 60) ++ "h" ++ minPart
  if d < 0 then "-" ++ core else core

example : durationString 0 = "0s" := by decide
example : durationString (1500 * 1000000) = "1.5s" := by decide
example : durationString (90 * second) = "1m30s" := by decide
example : durationString (3661 * second) = "1h1m1s" := by decide
example : durationString (150 * 1000000) = "150ms" := by decide
example : durationString (-(2 * second)) = "-2s" := by decide

/-- `fmt.Sprintf("%-8s", s)`: left-justify to a minimum width of 8 runes. -/
def padRight8 (s : String) : String :=
  s ++ String.mk (List.replicate (8 - s.length) ' ')

/-- Per-job displayed duration: completed − started when both timestamps are
present, else zero ... -/
def jobDuration (j : Job) : Int :=
  match j.startedAt, j.completedAt with
  | some s, some c => c - s
  | _, _ => 0

/-- ... rounded to the nearest second above one minute, else to the nearest
10 milliseconds. -/
def jobRoundedDuration (j : Job) : Int :=
  if jobDuration j > minute then durRound (jobDuration j) second
  else durRound (jobDuration j) (10 * 1000000)

/-- The duration cell: wrapped in the red highlight escape sequence (with
`%-8s` padding) when the job failed and stdout is a terminal. -/
def jobDurString (j : Job) (istty : Bool) : String :=
  if j.Failed && istty then
    "\x1b[38;05;160m" ++ padRight8 (durationString (jobRoundedDuration j))
      ++ "\x1b[0m"
  else durationString (jobRoundedDuration j)

/-- The two-column `text/tabwriter` layout used by `buildJobsSummary`
(minwidth 0, tabwidth 0, padding 1, pad byte ' ', no flags): the first
column is padded with spaces to one more than the widest first-column cell
(cell widths in runes), and the trailing cell of each line is written
unpadded before the newline. -/
def renderTab (rows : List (String × String)) : String :=
  String.join (rows.map (fun row =>
    row.1
      ++ String.mk (List.replicate
          (((rows.map (fun r => r.1.length)).foldr max 0 + 1) - row.1.length) ' ')
      ++ row.2 ++ "\n"))

/-- `buildJobsSummary` renders the job table (preceded by a blank line) and
selects the first failed job in input order.  Whether stdout is an
interactive terminal — `isatty()`, which the Go code queries ambiently per
failed job — is the explicit parameter `istty`. -/
def buildJobsSummary (jobs : List Job) (istty : Bool) : String × Option Job :=
  ("\n" ++ renderTab (jobs.map (fun j => (j.name, jobDurString j istty))),
   jobs.find? (fun j => j.Failed))

/-- C9 counterexample job: a failed job ("build", no timestamps). -/
def redJob : Job :=
  { id := 7, runId := 1, name := "build", status := "completed",
    conclusion := some "failure", startedAt := none, completedAt := none,
    steps := [], htmlURL := "" }

/-- C9 counterexample: with a failed job in the list, the rendered bytes
depend on whether stdout is an interactive terminal (the duration cell is
wrapped in a color escape sequence), so `buildJobsSummary` is not a pure
function of the job list alone. -/
theorem buildJobsSummary_depends_on_terminal :
    buildJobsSummary [redJob] true ≠ buildJobsSummary [redJob] false := by
  decide

/-- C9 (amended): `buildJobsSummary` is a pure function of the job list and
the ambient terminal flag.  The selected failed job never depends on the
flag, and when no job in the list failed the rendered bytes do not depend on
it either; only a failed job's duration cell is colorized on a terminal. -/
theorem buildJobsSummary_pure_given_terminal (jobs : List Job) (t1 t2 : Bool) :
    (buildJobsSummary jobs t1).2 = (buildJobsSummary jobs t2).2
    ∧ ((∀ j ∈ jobs, j.Failed = false) →
        buildJobsSummary jobs t1 = buildJobsSummary jobs t2) := by
  refine ⟨rfl, ?_⟩
  intro hnf
  have hrows : jobs.map (fun j => (j.name, jobDurString j t1))
      = jobs.map (fun j => (j.name, jobDurString j t2)) := by
    apply List.map_congr_left
    intro j hj
    have hf : j.Failed = false := hnf j hj
    simp [jobDurString, hf]
  unfold buildJobsSummary
  rw [hrows]

/-- C9 witness: on a list with no failed job, the rendering is independent
of the terminal flag. -/
theorem buildJobsSummary_pure_given_terminal_witness :
    buildJobsSummary [{ redJob with conclusion := some "success" }] true
      = buildJobsSummary [{ redJob with conclusion := some "success" }] false :=
  (buildJobsSummary_pure_given_terminal
    [{ redJob with conclusion := some "success" }] true false).2 (by decide)

/-! ## Failure report (`BuildSummary`, lib/client.go) -/

/-- Rendering of Go error messages (the `Error()` methods of the wrapped
error values).  The address/name detail fields that this embedding does not
carry are omitted; no claim depends on the text. -/
def errString : GoErr → String
  | .opError op network _ => op ++ " " ++ network
  | .dnsError _ => "lookup"
  | .unknownNetworkError s => "unknown network " ++ s
  | .netError _ => "net error"
  | .generic msg => msg
  | .urlError err => errString err

/-- `bytes.IndexByte`: index of the first occurrence, or -1. -/
def indexOfChar (s : List Char) (c : Char) : Int :=
  match s with
  | [] => -1
  | a :: rest =>
    if a = c then 0
    else if indexOfChar rest c = -1 then -1 else indexOfChar rest c + 1

/-- The `'='` separator row of `BuildSummary`: `linelen` is the index of the
first newline of `summary[1:]` (the rune length of the first table row), and
the row of `'='` is emitted only when it is positive. -/
def sepLine (summary : String) : String :=
  if indexOfChar (summary.toList.drop 1) '\n' > 0 then
    String.mk (List.replicate (indexOfChar (summary.toList.drop 1) '\n').toNat '=')
  else ""

/-- View of raw log bytes as text for splicing into the report (exact for
ASCII logs; rendered text is modelled at rune level throughout). -/
def bytesToString (l : List Nat) : String := String.mk (l.map Char.ofNat)

/-- `BuildSummary` builds the failure report: the job table, a separator row,
and — only when the failed job's logs could be fetched and the extracted
tail is non-empty — the log excerpt section.  The two collaborator calls the
Go method makes (`ListJobs`, then `GetJobLogs` on the first failed job) enter
as the `jobsRes` value and the `logsRes` oracle; a log-fetch error leaves
`failure` empty rather than propagating. -/
def BuildSummary (jobsRes : Except GoErr (List Job))
    (logsRes : Int → Except GoErr (List Nat))
    (istty : Bool) (numOutputLines : Nat) : String :=
  match jobsRes with
  | .error e => "\n" ++ "Error fetching jobs: " ++ errString e ++ "\n"
  | .ok jobs =>
    (buildJobsSummary jobs istty).1 ++ "\n"
      ++ sepLine (buildJobsSummary jobs istty).1
      ++ (if (match (buildJobsSummary jobs istty).2 with
              | none => ([] : List Nat)
              | some fj =>
                match logsRes fj.id with
                | .error _ => []
                | .ok logs => findBuildFailure logs numOutputLines).length > 0
          then
            "\nLast " ++ Nat.repr numOutputLines
              ++ " lines of failed build output:\n\n"
              ++ bytesToString
                (match (buildJobsSummary jobs istty).2 with
                 | none => ([] : List Nat)
                 | some fj =>
                   match logsRes fj.id with
                   | .error _ => []
                   | .ok logs => findBuildFailure logs numOutputLines)
          else "")

/-- C8: log-fetch failures while building a failure report are swallowed.
If the job list was fetched and the first failed job's log fetch returns an
error, `BuildSummary` still returns the rendered job-duration table followed
by the separator row, with no log excerpt section and no propagated error;
and whenever the output is anything else, the log fetch succeeded and the
extracted tail was non-empty. -/
theorem buildSummary_swallows_log_errors (jobs : List Job) (istty : Bool)
    (numOutputLines : Nat) (logsRes : Int → Except GoErr (List Nat)) :
    (∀ fj e, (buildJobsSummary jobs istty).2 = some fj →
      logsRes fj.id = Except.error e →
      BuildSummary (Except.ok jobs) logsRes istty numOutputLines
        = (buildJobsSummary jobs istty).1 ++ "\n"
          ++ sepLine (buildJobsSummary jobs istty).1)
    ∧ (BuildSummary (Except.ok jobs) logsRes istty numOutputLines
        ≠ (buildJobsSummary jobs istty).1 ++ "\n"
          ++ sepLine (buildJobsSummary jobs istty).1
      → ∃ fj logs, (buildJobsSummary jobs istty).2 = some fj
          ∧ logsRes fj.id = Except.ok logs
          ∧ findBuildFailure logs numOutputLines ≠ []) := by
  constructor
  · intro fj e hfj herr
    simp only [BuildSummary, hfj, herr]
    simp
  · intro hne
    cases hfj : (buildJobsSummary jobs istty).2 with
    | none =>
      exact absurd (by simp only [BuildSummary, hfj]; simp) hne
    | some fj =>
      cases hlogs : logsRes fj.id with
      | error e =>
        exact absurd (by simp only [BuildSummary, hfj, hlogs]; simp) hne
      | ok logs =>
        refine ⟨fj, logs, rfl, hlogs, ?_⟩
        intro hempty
        exact absurd (by simp only [BuildSummary, hfj, hlogs, hempty]; simp) hne

/-- C8 witness job (its own copy, one failed job named "test"). -/
def c8Job : Job :=
  { id := 9, runId := 2, name := "test", status := "completed",
    conclusion := some "failure", startedAt := none, completedAt := none,
    steps := [], htmlURL := "" }

/-- C8 witness: with a log fetch that always errors, the report is exactly
the job table plus the separator row. -/
theorem buildSummary_swallows_log_errors_witness :
    BuildSummary (Except.ok [c8Job]) (fun _ => Except.error (GoErr.generic "boom"))
        false 3
      = (buildJobsSummary [c8Job] false).1 ++ "\n"
        ++ sepLine (buildJobsSummary [c8Job] false).1 :=
  (buildSummary_swallows_log_errors [c8Job] false 3
      (fun _ => Except.error (GoErr.generic "boom"))).1
    c8Job (GoErr.generic "boom") (by decide) rfl

/-! ## The polling loop (`doWait`, main.go)

One loop iteration per element of a `Cycle` list: each cycle carries the
`time.Now()` sample for that iteration and the result of
`FindWorkflowRunsForCommit`.  Exhausting the list models the context
deadline firing at the next blocking wait (`ctx.Done()`).  The `Event` trace
records the collaborator calls the loop (and the summary builders it invokes)
makes, in order; prints are recorded as events rather than bytes. -/

inductive Event where
  | listRuns
  | listJobs (runId : Int)
  | getJobLogs (jobId : Int)
  | printStatus
  deriving DecidableEq

inductive WaitOutcome where
  | success
  | buildFailed
  | fatal (e : GoErr)
  | deadline
  deriving DecidableEq

structure Cycle where
  now : Int
  poll : Except GoErr (List WorkflowRun)

/-- The collaborator calls `BuildSummary` makes for the representative failed
run: `ListJobs`, then — whenever a first failed job exists — `GetJobLogs`
for it (the call happens regardless of whether it then errors). -/
def buildSummaryEvents (runId : Int) (jobsRes : Except GoErr (List Job))
    (istty : Bool) : List Event :=
  match jobsRes with
  | .error _ => [Event.listJobs runId]
  | .ok jobs =>
    match (buildJobsSummary jobs istty).2 with
    | none => [Event.listJobs runId]
    | some fj => [Event.listJobs runId, Event.getJobLogs fj.id]

/-- The `for` loop of `doWait`.  State threaded between iterations is
`lastPrintedAt`; `startTime` is fixed at loop entry.  Each iteration lists
the runs; a retryable fetch error or an empty result prints a notice,
resets `lastPrintedAt` and loops; a fatal error aborts; once every run is
completed the loop terminates — through `BuildSummary` on the first failed
run when one exists (conclusion failure/cancelled/timed_out), else through
`BuildJobsSummary` (= `ListJobs`) per run reporting success; otherwise the
throttle decides whether to print a status line and the loop continues. -/
def doWaitLoop (jobsO : Int → Except GoErr (List Job)) (istty : Bool)
    (startTime : Int) : Int → List Cycle → WaitOutcome × List Event
  | _, [] => (WaitOutcome.deadline, [])
  | lastPrintedAt, c :: rest =>
    match c.poll with
    | .error e =>
      if isHttpError (some e) then
        -- retryable: notice printed, lastPrintedAt = time.Now(), sleep, loop
        ((doWaitLoop jobsO istty startTime c.now rest).1,
          Event.listRuns :: (doWaitLoop jobsO istty startTime c.now rest).2)
      else (WaitOutcome.fatal e, [Event.listRuns])
    | .ok runs =>
      if runs.isEmpty then
        -- no runs yet: notice printed, lastPrintedAt = time.Now(), sleep, loop
        ((doWaitLoop jobsO istty startTime c.now rest).1,
          Event.listRuns :: (doWaitLoop jobsO istty startTime c.now rest).2)
      else
        if runs.all (fun r => r.IsCompleted) then
          match runs.find? (fun r => r.IsFailed) with
          | some failedRun =>
            (WaitOutcome.buildFailed,
              Event.listRuns
                :: buildSummaryEvents failedRun.id (jobsO failedRun.id) istty)
          | none =>
            (WaitOutcome.success,
              Event.listRuns :: runs.map (fun r => Event.listJobs r.id))
        else
          if shouldPrint lastPrintedAt (durRound (c.now - startTime) second)
              c.now then
            ((doWaitLoop jobsO istty startTime c.now rest).1,
              Event.listRuns :: Event.printStatus
                :: (doWaitLoop jobsO istty startTime c.now rest).2)
          else
            ((doWaitLoop jobsO istty startTime lastPrintedAt rest).1,
              Event.listRuns
                :: (doWaitLoop jobsO istty startTime lastPrintedAt rest).2)

theorem isFailed_of_success (r : WorkflowRun)
    (h : r.conclusion = some "success") : r.IsFailed = false := by
  unfold WorkflowRun.IsFailed
  rw [h]
  simp

/-- Any session trace ending in the success outcome contains no
`GetJobLogs` call: the only branch that fetches job logs is the terminal
failure branch, which reports `buildFailed`. -/
theorem doWaitLoop_success_trace (jobsO : Int → Except GoErr (List Job))
    (istty : Bool) (startTime : Int) :
    ∀ (cycles : List Cycle) (lastP : Int) (out : WaitOutcome)
      (evs : List Event) (jid : Int),
      doWaitLoop jobsO istty startTime lastP cycles = (out, evs) →
      out = WaitOutcome.success →
      Event.getJobLogs jid ∉ evs := by
  intro cycles
  induction cycles with
  | nil =>
    intro lastP out evs jid heq hs
    simp only [doWaitLoop] at heq
    cases heq
    exact WaitOutcome.noConfusion hs
  | cons c rest ih =>
    intro lastP out evs jid heq hs
    obtain ⟨cnow, cpoll⟩ := c
    cases cpoll with
    | error e =>
      simp only [doWaitLoop] at heq
      by_cases hhttp : isHttpError (some e) = true
      · rw [if_pos hhttp] at heq
        cases heq
        intro hmem
        rcases List.mem_cons.mp hmem with h1 | h1
        · exact Event.noConfusion h1
        · exact ih cnow _ _ jid rfl hs h1
      · rw [if_neg hhttp] at heq
        cases heq
        exact WaitOutcome.noConfusion hs
    | ok runs =>
      simp only [doWaitLoop] at heq
      by_cases hemp : runs.isEmpty = true
      · rw [if_pos hemp] at heq
        cases heq
        intro hmem
        rcases List.mem_cons.mp hmem with h1 | h1
        · exact Event.noConfusion h1
        · exact ih cnow _ _ jid rfl hs h1
      · rw [if_neg hemp] at heq
        by_cases hallc : runs.all (fun r => r.IsCompleted) = true
        · rw [if_pos hallc] at heq
          cases hf : runs.find? (fun r => r.IsFailed) with
          | some fr =>
            rw [hf] at heq
            cases heq
            exact WaitOutcome.noConfusion hs
          | none =>
            rw [hf] at heq
            cases heq
            intro hmem
            rcases List.mem_cons.mp hmem with h1 | h1
            · exact Event.noConfusion h1
            · rcases List.mem_map.mp h1 with ⟨r, _, hr⟩
              exact Event.noConfusion hr
        · rw [if_neg hallc] at heq
          by_cases hsp : shouldPrint lastP (durRound (cnow - startTime) second)
              cnow = true
          · rw [if_pos hsp] at heq
            cases heq
            intro hmem
            rcases List.mem_cons.mp hmem with h1 | h1
            · exact Event.noConfusion h1
            · rcases List.mem_cons.mp h1 with h2 | h2
              · exact Event.noConfusion h2
              · exact ih cnow _ _ jid rfl hs h2
          · rw [if_neg hsp] at heq
            cases heq
            intro hmem
            rcases List.mem_cons.mp hmem with h1 | h1
            · exact Event.noConfusion h1
            · exact ih lastP _ _ jid rfl hs h1

/-- C7: when a poll returns a non-empty list of runs all completed with
conclusion success, the session terminates on that very cycle (the result
does not depend on any later cycles) reporting success — nil error — with
exactly one `ListJobs` call per run (`BuildJobsSummary`); and no
successfully-terminating session trace ever contains a `GetJobLogs` call. -/
theorem doWait_success_cycle_no_joblogs (jobsO : Int → Except GoErr (List Job))
    (istty : Bool) (startTime lastPrintedAt now : Int)
    (runs : List WorkflowRun) (rest cycles : List Cycle)
    (hne : runs ≠ [])
    (hall : ∀ r ∈ runs, r.IsCompleted = true ∧ r.conclusion = some "success") :
    doWaitLoop jobsO istty startTime lastPrintedAt
        ({ now := now, poll := Except.ok runs } :: rest)
      = (WaitOutcome.success,
          Event.listRuns :: runs.map (fun r => Event.listJobs r.id))
    ∧ ∀ (lastP jid : Int),
        (doWaitLoop jobsO istty startTime lastP cycles).1 = WaitOutcome.success →
        Event.getJobLogs jid ∉ (doWaitLoop jobsO istty startTime lastP cycles).2 := by
  constructor
  · have hemp : runs.isEmpty = false := by
      cases runs with
      | nil => exact absurd rfl hne
      | cons a l => rfl
    have hallc : runs.all (fun r => r.IsCompleted) = true := by
      rw [List.all_eq_true]
      exact fun r hr => (hall r hr).1
    have hfind : runs.find? (fun r => r.IsFailed) = none := by
      rw [List.find?_eq_none]
      intro r hr
      rw [isFailed_of_success r (hall r hr).2]
      exact Bool.false_ne_true
    simp only [doWaitLoop]
    rw [if_neg (by simp [hemp]), if_pos hallc, hfind]
  · exact fun lastP jid h =>
      doWaitLoop_success_trace jobsO istty startTime cycles lastP _ _ jid rfl h

/-- C7 witness run: a completed, successful workflow run. -/
def greenRun : WorkflowRun :=
  { id := 5, name := "ci", headBranch := "main", headSha := "", path := "",
    runNumber := 1, runAttempt := 1, event := "push", displayTitle := "",
    status := "completed", conclusion := some "success", workflowId := 1,
    url := "", htmlURL := "", createdAt := 0, updatedAt := 0,
    runStartedAt := none, jobsURL := "", pullRequests := [] }

/-- C7 witness: a one-cycle session whose poll returns a single successful
run ends immediately in success with only `ListRuns` and `ListJobs` calls. -/
theorem doWait_success_cycle_no_joblogs_witness :
    doWaitLoop (fun _ => Except.ok []) false 0 0
        [{ now := 0, poll := Except.ok [greenRun] }]
      = (WaitOutcome.success, [Event.listRuns, Event.listJobs 5]) :=
  (doWait_success_cycle_no_joblogs (fun _ => Except.ok []) false 0 0 0
    [greenRun] [] [] (by decide) (by decide)).1

end GithubActions
